import Mathlib

/-
Verification development for the cargo-proton-bundle WiX bundler
(src/tools/rust/cargo-proton-bundle/src/bundle/wix.rs).

The Rust source is shallowly embedded: pure computations (SHA-256 digesting,
hex decoding, digest comparison) become Lean functions over `Nat` bytes;
effectful collaborators (HTTP fetch, zip parsing, process spawning) become
fields of an explicit `Env` record; the filesystem becomes an explicit `FS`
state threaded through the extraction code; panics (`unwrap` / `expect` in
the source) become a distinguished `Outcome.aborted` constructor.
-/

/-! ## SHA-256 (FIPS 180-4), the digest computed by the sha2 crate inside
`download_and_verify` (wix.rs lines 53-56). Words are `Nat`s reduced mod 2^32. -/

def mask32 : Nat := 4294967296

def add32 (a b : Nat) : Nat := (a + b) % mask32

def rotr32 (n x : Nat) : Nat := ((x >>> n) ||| (x <<< (32 - n))) % mask32

def shr32 (n x : Nat) : Nat := x >>> n

def ch32 (x y z : Nat) : Nat := Nat.xor (Nat.land x y) (Nat.land (Nat.xor x (mask32 - 1)) z)

def maj32 (x y z : Nat) : Nat := Nat.xor (Nat.xor (Nat.land x y) (Nat.land x z)) (Nat.land y z)

def bsig0 (x : Nat) : Nat := Nat.xor (Nat.xor (rotr32 2 x) (rotr32 13 x)) (rotr32 22 x)

def bsig1 (x : Nat) : Nat := Nat.xor (Nat.xor (rotr32 6 x) (rotr32 11 x)) (rotr32 25 x)

def ssig0 (x : Nat) : Nat := Nat.xor (Nat.xor (rotr32 7 x) (rotr32 18 x)) (shr32 3 x)

def ssig1 (x : Nat) : Nat := Nat.xor (Nat.xor (rotr32 17 x) (rotr32 19 x)) (shr32 10 x)

/-- The 64 SHA-256 round constants, in decimal. -/
def sha256K : List Nat :=
  [1116352408, 1899447441, 3049323471, 3921009573, 961987163, 1508970993,
   2453635748, 2870763221, 3624381080, 310598401, 607225278, 1426881987,
   1925078388, 2162078206, 2614888103, 3248222580, 3835390401, 4022224774,
   264347078, 604807628, 770255983, 1249150122, 1555081692, 1996064986,
   2554220882, 2821834349, 2952996808, 3210313671, 3336571891, 3584528711,
   113926993, 338241895, 666307205, 773529912, 1294757372, 1396182291,
   1695183700, 1986661051, 2177026350, 2456956037, 2730485921, 2820302411,
   3259730800, 3345764771, 3516065817, 3600352804, 4094571909, 275423344,
   430227734, 506948616, 659060556, 883997877, 958139571, 1322822218,
   1537002063, 1747873779, 1955562222, 2024104815, 2227730452, 2361852424,
   2428436474, 2756734187, 3204031479, 3329325298]

/-- The eight SHA-256 initial hash values, in decimal. -/
def sha256H0 : List Nat :=
  [1779033703, 3144134277, 1013904242, 2773480762,
   1359893119, 2600822924, 528734635, 1541459225]

/-- Number of zero bytes of padding so that length + 1 + zeros is 56 mod 64. -/
def sha256PadZeros (len : Nat) : Nat := (119 - (len % 64)) % 64

def be64 (n : Nat) : List Nat :=
  [(n >>> 56) % 256, (n >>> 48) % 256, (n >>> 40) % 256, (n >>> 32) % 256,
   (n >>> 24) % 256, (n >>> 16) % 256, (n >>> 8) % 256, n % 256]

def be32 (n : Nat) : List Nat := [(n >>> 24) % 256, (n >>> 16) % 256, (n >>> 8) % 256, n % 256]

def sha256Pad (msg : List Nat) : List Nat :=
  msg ++ 128 :: (List.replicate (sha256PadZeros msg.length) 0 ++ be64 (8 * msg.length))

def toBlocksF : Nat → List Nat → List (List Nat)
  | 0, _ => []
  | _, [] => []
  | fuel + 1, x :: xs => ((x :: xs).take 64) :: toBlocksF fuel ((x :: xs).drop 64)

/-- Split into 64-byte blocks. Fuel-based structural recursion (the fuel
`l.length` is always sufficient since each step consumes at least one byte). -/
def toBlocks (l : List Nat) : List (List Nat) := toBlocksF l.length l

def toWords : List Nat → List Nat
  | a :: b :: c :: d :: rest => (((a * 256 + b) * 256 + c) * 256 + d) :: toWords rest
  | _ => []

def scheduleStep (w : List Nat) : List Nat :=
  let i := w.length
  w ++ [add32 (add32 (ssig1 (w.getD (i - 2) 0)) (w.getD (i - 7) 0))
              (add32 (ssig0 (w.getD (i - 15) 0)) (w.getD (i - 16) 0))]

def schedule (w : List Nat) : List Nat := (List.range 48).foldl (fun acc _ => scheduleStep acc) w

def roundStep (s : List Nat) (kw : Nat × Nat) : List Nat :=
  let a := s.getD 0 0
  let b := s.getD 1 0
  let c := s.getD 2 0
  let d := s.getD 3 0
  let e := s.getD 4 0
  let f := s.getD 5 0
  let g := s.getD 6 0
  let h := s.getD 7 0
  let t1 := add32 h (add32 (bsig1 e) (add32 (ch32 e f g) (add32 kw.1 kw.2)))
  let t2 := add32 (bsig0 a) (maj32 a b c)
  [add32 t1 t2, a, b, c, add32 d t1, e, f, g]

def compressBlock (h : List Nat) (block : List Nat) : List Nat :=
  let w := schedule (toWords block)
  let s := (sha256K.zip w).foldl roundStep h
  (h.zip s).map (fun p => add32 p.1 p.2)

def sha256 (msg : List Nat) : List Nat :=
  (((toBlocks (sha256Pad msg)).foldl compressBlock sha256H0).map be32).flatten

/-! ## Hex decoding, as done by `hex::decode` on the expected digest string
(wix.rs line 57). The hex crate checks for odd length first, then scans
byte pairs left to right. -/

inductive HexError where
  | oddLength : HexError
  | invalidChar (c : Char) (index : Nat) : HexError
deriving DecidableEq, Repr

def hexVal (c : Char) : Option Nat :=
  if 'A' ≤ c ∧ c ≤ 'F' then some (c.toNat - 'A'.toNat + 10)
  else if 'a' ≤ c ∧ c ≤ 'f' then some (c.toNat - 'a'.toNat + 10)
  else if '0' ≤ c ∧ c ≤ '9' then some (c.toNat - '0'.toNat)
  else none

def hexDecodeGo : List Char → Nat → Except HexError (List Nat)
  | [], _ => .ok []
  | [_], _ => .error .oddLength
  | c1 :: c2 :: rest, i =>
    match hexVal c1 with
    | none => .error (.invalidChar c1 i)
    | some hi =>
      match hexVal c2 with
      | none => .error (.invalidChar c2 (i + 1))
      | some lo => (hexDecodeGo rest (i + 2)).map (fun bs => (hi * 16 + lo) :: bs)

def hexDecode (s : String) : Except HexError (List Nat) :=
  if s.length % 2 ≠ 0 then .error .oddLength else hexDecodeGo s.data 0

/-- A single-quote character as a string (used by the hex crate error display). -/
def squote : String := String.singleton (Char.ofNat 39)

/-- The `Display` rendering of a hex decoding error, as produced by
`e.to_string()` at wix.rs line 57. -/
def hexErrorMessage : HexError → String
  | .oddLength => "Odd number of digits"
  | .invalidChar c i =>
      "Invalid character " ++ squote ++ String.singleton c ++ squote ++
        " at position " ++ Nat.repr i

/-! ## The verification slice of `download_and_verify` (wix.rs lines 53-63):
hash the downloaded bytes, hex-decode the expected digest (early return with
the stringified hex error on failure), compare, and either return the bytes
or the constant mismatch message. -/

def verifyDigest (data : List Nat) (hash : String) : Except String (List Nat) :=
  let url_hash := sha256 data
  match hexDecode hash with
  | .error e => .error (hexErrorMessage e)
  | .ok expected_hash =>
    if expected_hash = url_hash then .ok data else .error "hash mismatch of downloaded file"

/-! ## Outcome of running a Rust function that may return `Ok`, return `Err`,
or abort the process with a panic (`unwrap` / `expect` in the source). -/

inductive Outcome (α : Type) where
  | ok (a : α) : Outcome α
  | err (e : String) : Outcome α
  | aborted (msg : String) : Outcome α
deriving DecidableEq, Repr

def Outcome.isErr : Outcome α → Bool
  | .err _ => true
  | _ => false

def Outcome.isAborted : Outcome α → Bool
  | .aborted _ => true
  | _ => false

/-! ## Paths. Paths are plain strings; `pathJoin` mirrors `Path::join` with a
relative right operand, `pathParent` mirrors `Path::parent` (for a path with
no separator Rust returns `Some("")`; the empty path has no parent; the
absolute-root edge cases of Rust are not distinguished by this model). -/

def pathJoin (p n : String) : String := if p = "" then n else p ++ "/" ++ n

def parentChars (cs : List Char) : Option (List Char) :=
  match cs.reverse.dropWhile (fun c => ¬ c = '/') with
  | [] => none
  | _ :: pre => some pre.reverse

def pathParent (p : String) : Option String :=
  if p = "" ∨ p = "/" then none
  else
    match parentChars p.data with
    | none => some ""
    | some pre => some (String.mk pre)

/-- Split a character list on the slash separator (structural counterpart of
the component decomposition `std::fs::create_dir_all` performs). -/
def splitOnSlash : List Char → List (List Char)
  | [] => [[]]
  | c :: rest =>
    let r := splitOnSlash rest
    if c = '/' then [] :: r
    else
      match r with
      | [] => [[c]]
      | g :: gs => (c :: g) :: gs

def ancestorsAux (cur : String) : List String → List String
  | [] => [cur]
  | c :: cs => cur :: ancestorsAux (cur ++ "/" ++ c) cs

/-- All the directory paths `create_dir_all p` has to ensure, outermost
first, ending with `p` itself. -/
def pathAncestors (p : String) : List String :=
  match (splitOnSlash p.data).map String.mk with
  | [] => []
  | c :: cs => ancestorsAux c cs

/-! ## Filesystem model: an association list of file paths to byte contents
(first match wins on lookup, replaced in place on overwrite, appended on
first creation), plus the set of directories known to exist. -/

def lookupFile (k : String) : List (String × List Nat) → Option (List Nat)
  | [] => none
  | (k₁, v₁) :: rest => if k = k₁ then some v₁ else lookupFile k rest

def setFile (k : String) (v : List Nat) : List (String × List Nat) → List (String × List Nat)
  | [] => [(k, v)]
  | (k₁, v₁) :: rest => if k = k₁ then (k, v) :: rest else (k₁, v₁) :: setFile k v rest

def insertDir (d : String) (ds : List String) : List String :=
  if d ∈ ds then ds else ds ++ [d]

structure FS where
  files : List (String × List Nat)
  dirs : List String
deriving DecidableEq, Repr

/-- `Path::exists`: true if the path names an existing directory or file. -/
def FS.exists? (fs : FS) (p : String) : Prop := p ∈ fs.dirs ∨ (lookupFile p fs.files).isSome

instance (fs : FS) (p : String) : Decidable (fs.exists? p) := by
  unfold FS.exists?
  infer_instance

def FS.write (dest : String) (buff : List Nat) (fs : FS) : FS :=
  { fs with files := setFile dest buff fs.files }

/-- `std::fs::create_dir_all`: succeeds immediately on the empty path;
otherwise every ancestor component (and the path itself) must either already
be a directory or not exist as a file, and all of them are added to the
directory set. -/
def createDirAll (p : String) (fs : FS) : Except String FS :=
  if p = "" then .ok fs
  else
    let comps := pathAncestors p ++ [p]
    if ∀ c ∈ comps, c ∈ fs.dirs ∨ lookupFile c fs.files = none then
      .ok { fs with dirs := comps.foldl (fun ds c => insertDir c ds) fs.dirs }
    else .error "failed to create directory"

/-- `File::create dest`: fails (and the source `unwrap`s, i.e. panics) if
`dest` is an existing directory or its parent is not an existing directory;
otherwise truncates/creates the file. -/
def fileCreate (dest : String) (fs : FS) : Option FS :=
  if dest ∈ fs.dirs then none
  else
    match pathParent dest with
    | none => none
    | some par => if par = "" ∨ par ∈ fs.dirs then some (fs.write dest []) else none

/-! ## Zip archives. The zip crate is an external collaborator: parsing the
raw bytes is an environment function producing, for each index of the
archive, either a read failure (`by_index` / `read_to_end` errors) or the
entry's name and contents. -/

instance {ε α : Type} [DecidableEq ε] [DecidableEq α] : DecidableEq (Except ε α)
  | .error x, .error y => decidable_of_iff (x = y) (by simp)
  | .error _, .ok _ => isFalse (by simp)
  | .ok _, .error _ => isFalse (by simp)
  | .ok x, .ok y => decidable_of_iff (x = y) (by simp)

structure ZipEntry where
  name : String
  content : Except String (List Nat)
deriving DecidableEq, Repr

/-- Exit status of a child process, as observed through
`std::process::ExitStatus`: `code` is `none` when the process was killed by
a signal, and `success` holds exactly for code 0. -/
structure ExitStatus where
  code : Option Int
deriving DecidableEq, Repr

def ExitStatus.success (s : ExitStatus) : Bool := s.code == some 0

inductive SpawnResult where
  | fail (cause : String) : SpawnResult
  | proc (lines : List String) (status : ExitStatus) : SpawnResult
deriving DecidableEq, Repr

/-- The effectful collaborators of wix.rs: HTTP fetch (reqwest GET plus
`read_to_end`), zip parsing, and process spawning (program, argument vector,
working directory). All are deterministic functions of their inputs. -/
structure Env where
  fetch : String → Except String (List Nat)
  parseZip : List Nat → Except String (List (Except String ZipEntry))
  spawn : String → List String → String → SpawnResult

/-! ## `download_and_verify` (wix.rs lines 40-64). -/

def WIX_URL : String :=
  "https://github.com/wixtoolset/wix3/releases/download/wix3111rtm/wix311-binaries.zip"

def WIX_SHA256 : String := "37f0a533b0978a454efb5dc3bd3598becf9660aaf4287e55bf68ca6b527d051d"

def download_and_verify (env : Env) (url : String) (hash : String) : Except String (List Nat) :=
  match env.fetch url with
  | .error e => .error e
  | .ok data => verifyDigest data hash

/-! ## `extract_zip` (wix.rs lines 66-90): entry by entry, compute the
destination path, ensure the parent directory exists, read the entry, create
the destination file (panicking on failure, as the source `unwrap`s) and
write the contents. -/

/-- One iteration of the extraction loop: read the entry header, compute the
destination path, `unwrap` its parent, ensure the parent directory exists,
read the entry bytes, create the destination file (`unwrap`) and write. -/
def extractOne (er : Except String ZipEntry) (path : String) (fs : FS) : Outcome Unit × FS :=
  match er with
  | .error e => (.err e, fs)
  | .ok entry =>
    let dest := pathJoin path entry.name
    match pathParent dest with
    | none => (.aborted "called unwrap on a path without parent", fs)
    | some parent =>
      match (if fs.exists? parent then .ok fs else createDirAll parent fs : Except String FS) with
      | .error e => (.err e, fs)
      | .ok fs1 =>
        match entry.content with
        | .error e => (.err e, fs1)
        | .ok buff =>
          match fileCreate dest fs1 with
          | none => (.aborted "File::create failed", fs1)
          | some fs2 => (.ok (), fs2.write dest buff)

def extractEntries : List (Except String ZipEntry) → String → FS → Outcome Unit × FS
  | [], _, fs => (.ok (), fs)
  | er :: rest, path, fs =>
    match extractOne er path fs with
    | (.ok _, fs') => extractEntries rest path fs'
    | (.err e, fs') => (.err e, fs')
    | (.aborted m, fs') => (.aborted m, fs')

/-- The destination paths of the archive's readable entries, in order. -/
def destsOf (path : String) (entries : List (Except String ZipEntry)) : List String :=
  entries.filterMap (fun er =>
    match er with
    | .ok e => some (pathJoin path e.name)
    | .error _ => none)

def extract_zip (env : Env) (data : List Nat) (path : String) (fs : FS) : Outcome Unit × FS :=
  match env.parseZip data with
  | .error e => (.err e, fs)
  | .ok entries => extractEntries entries path fs

/-! ## `get_and_extract_wix` (wix.rs lines 92-100). -/

def get_and_extract_wix (env : Env) (path : String) (fs : FS) : Outcome Unit × FS :=
  match download_and_verify env WIX_URL WIX_SHA256 with
  | .error e => (.err e, fs)
  | .ok data => extract_zip env data path fs

/-! ## Stage runners (wix.rs lines 102-231). Every observable interaction is
recorded as an `Event`: a message sent to the `slog` logger (`info!`), a
successful process spawn, or the `wait` on the child's exit status. The
source forwards each stdout line to the logger synchronously inside a `for`
loop and only then calls `wait`; a spawn failure hits `.expect(...)`, which
aborts the process. -/

inductive Event where
  | log (msg : String) : Event
  | spawned (prog : String) (args : List String) (cwd : String) : Event
  | waited (status : ExitStatus) : Event
deriving DecidableEq, Repr

def countSpawns (evs : List Event) : Nat :=
  evs.countP (fun e => match e with | .spawned _ _ _ => true | _ => false)

def heatArgs (harvest_dir platform : String) : List String :=
  ["dir", harvest_dir, "-platform", platform, "-cg", "AppFiles", "-dr", "APPLICATIONFOLDER",
   "-gg", "-srd", "-out", "appdir.wxs", "-var", "var.SourceDir"]

/-- `run_heat_exe` (wix.rs lines 102-151). Note the source joins the literal
`"head.exe"` onto the toolset path (line 127) even though every message around
it says `heat.exe`. -/
def run_heat_exe (env : Env) (wix_toolset_path build_path harvest_dir platform : String) :
    Outcome Unit × List Event :=
  let args := heatArgs harvest_dir platform
  let heat_exe := pathJoin wix_toolset_path "head.exe"
  match env.spawn heat_exe args build_path with
  | .fail _ => (.aborted "error running heat.exe", [])
  | .proc lines status =>
    let events := Event.spawned heat_exe args build_path ::
      (lines.map Event.log ++ [Event.waited status])
    if status.success then (.ok (), events) else (.err "error running heat.exe", events)

/-- `run_candle` (wix.rs lines 153-191). -/
def run_candle (env : Env) (wix_toolset_path build_path : String) (wxs_file_name : String) :
    Outcome Unit × List Event :=
  let arch := "x64"
  let args := ["-arch", arch, wxs_file_name]
  let candle_exe := pathJoin wix_toolset_path "candle.exe"
  let pre := Event.log ("running candle for " ++ wxs_file_name)
  match env.spawn candle_exe args build_path with
  | .fail _ => (.aborted "error running candle.exe", [pre])
  | .proc lines status =>
    let events := pre :: Event.spawned candle_exe args build_path ::
      (lines.map Event.log ++ [Event.waited status])
    if status.success then (.ok (), events) else (.err "error running candle.exe", events)

/-- `run_light` (wix.rs lines 193-231). -/
def run_light (env : Env) (wix_toolset_path build_path : String) (wixobjs : List String)
    (output_path : String) : Outcome Unit × List Event :=
  let args := ["-o", output_path] ++ wixobjs
  let light_exe := pathJoin wix_toolset_path "light.exe"
  let pre := Event.log ("running light to produce " ++ output_path)
  match env.spawn light_exe args build_path with
  | .fail _ => (.aborted "error running light.exe", [pre])
  | .proc lines status =>
    let events := pre :: Event.spawned light_exe args build_path ::
      (lines.map Event.log ++ [Event.waited status])
    if status.success then (.ok (), events) else (.err "error running light.exe", events)

/-! ## Manifest renderer.

Modelled from the spec: the render call site and the manifest template are
not under src/ (wix.rs only registers the template with Handlebars, lines
29-38). Section 4.3 of the spec describes the renderer as a narrow
substitution engine: named placeholders are replaced by values from the
context; a placeholder naming an absent key fails with
`RenderError::MissingKey(name)`; a template that is not well-formed (an
unterminated placeholder) fails with `RenderError::Malformed`; a failed
render writes nothing. -/

inductive RenderError where
  | missingKey (name : String) : RenderError
  | malformed : RenderError
deriving DecidableEq, Repr

inductive TemplateToken where
  | lit (s : String) : TemplateToken
  | placeholder (key : String) : TemplateToken
deriving DecidableEq, Repr

/-- Scan a character list for the two-character placeholder delimiters,
producing literal and placeholder tokens. `inside` is the accumulator state:
`none` while scanning literal text, `some acc` while scanning a placeholder
key. Modelled from the spec (see above). -/
def scanTemplate : List Char → List Char → Option (List Char) →
    Except RenderError (List TemplateToken)
  | [], litAcc, none =>
    .ok (if litAcc.isEmpty then [] else [.lit (String.mk litAcc.reverse)])
  | [], _, some _ => .error .malformed
  | '\x7b' :: '\x7b' :: rest, litAcc, none =>
    (scanTemplate rest [] (some [])).map (fun ts =>
      if litAcc.isEmpty then ts else .lit (String.mk litAcc.reverse) :: ts)
  | '\x7d' :: '\x7d' :: rest, keyAcc, some _ =>
    (scanTemplate rest [] none).map (fun ts => .placeholder (String.mk keyAcc.reverse) :: ts)
  | c :: rest, acc, inside => scanTemplate rest (c :: acc) inside

def parseTemplate (t : String) : Except RenderError (List TemplateToken) :=
  scanTemplate t.data [] none

def lookupCtx (k : String) : List (String × String) → Option String
  | [] => none
  | (k₁, v₁) :: rest => if k = k₁ then some v₁ else lookupCtx k rest

def renderTokens (ctx : List (String × String)) : List TemplateToken → Except RenderError String
  | [] => .ok ""
  | .lit s :: ts => (renderTokens ctx ts).map (fun r => s ++ r)
  | .placeholder k :: ts =>
    match lookupCtx k ctx with
    | none => .error (.missingKey k)
    | some v => (renderTokens ctx ts).map (fun r => v ++ r)

/-- Modelled from the spec: `render(templateSource, context)` of section 4.3. -/
def render (t : String) (ctx : List (String × String)) : Except RenderError String :=
  (parseTemplate t).bind (renderTokens ctx)

/-- Modelled from the spec: rendering the manifest and writing it to disk;
on a render failure nothing is written. -/
def renderToFile (fs : FS) (path : String) (t : String) (ctx : List (String × String)) :
    Except RenderError Unit × FS :=
  match render t ctx with
  | .error e => (.error e, fs)
  | .ok s => (.ok (), fs.write path (s.data.map Char.toNat))

/-! ## Pipeline orchestrator.

Modelled from the spec: the orchestrator that sequences the stages is not
under src/ (wix.rs contains only the stage runners). Section 4.5 of the
spec: `Preparing` ensures the toolchain installation exists (acquiring it
via `get_and_extract_wix` when absent) and renders the manifest; then
`Harvesting`, `Compiling` and `Linking` run the three stage runners in
order, short-circuiting to `Failed(stage)` on the first stage that reports
failure. A runner that aborts the process (panics) ends the run before any
failure state is reported. -/

inductive PipeStage where
  | Preparing : PipeStage
  | Harvesting : PipeStage
  | Compiling : PipeStage
  | Linking : PipeStage
deriving DecidableEq, Repr

inductive PipeResult where
  | done : PipeResult
  | failedAt (s : PipeStage) : PipeResult
  | aborted (msg : String) : PipeResult
deriving DecidableEq, Repr

/-- The three tools the spec requires in the toolchain installation. -/
def toolsPresent (fs : FS) (wixPath : String) : Bool :=
  (lookupFile (pathJoin wixPath "heat.exe") fs.files).isSome &&
  (lookupFile (pathJoin wixPath "candle.exe") fs.files).isSome &&
  (lookupFile (pathJoin wixPath "light.exe") fs.files).isSome

/-- Modelled from the spec: the pipeline orchestrator of section 4.5, driving
the source-embedded stage runners. -/
def pipeline (env : Env) (wixPath buildPath harvestDir platform : String)
    (template : String) (ctx : List (String × String)) (wxsName : String)
    (wixobjs : List String) (outputPath : String) (fs : FS) :
    PipeResult × FS × List Event :=
  match (if toolsPresent fs wixPath then (.ok (), fs) else get_and_extract_wix env wixPath fs :
      Outcome Unit × FS) with
  | (.aborted m, fs') => (.aborted m, fs', [])
  | (.err _, fs') => (.failedAt .Preparing, fs', [])
  | (.ok _, fs1) =>
    match renderToFile fs1 (pathJoin buildPath wxsName) template ctx with
    | (.error _, fs2) => (.failedAt .Preparing, fs2, [])
    | (.ok _, fs2) =>
      match run_heat_exe env wixPath buildPath harvestDir platform with
      | (.aborted m, ev) => (.aborted m, fs2, ev)
      | (.err _, ev) => (.failedAt .Harvesting, fs2, ev)
      | (.ok _, ev1) =>
        match run_candle env wixPath buildPath wxsName with
        | (.aborted m, ev) => (.aborted m, fs2, ev1 ++ ev)
        | (.err _, ev) => (.failedAt .Compiling, fs2, ev1 ++ ev)
        | (.ok _, ev2) =>
          match run_light env wixPath buildPath wixobjs outputPath with
          | (.aborted m, ev) => (.aborted m, fs2, ev1 ++ ev2 ++ ev)
          | (.err _, ev) => (.failedAt .Linking, fs2, ev1 ++ ev2 ++ ev)
          | (.ok _, ev3) => (.done, fs2, ev1 ++ ev2 ++ ev3)

/-! ## Concrete fixtures used by witnesses and counterexamples. -/

/-- An environment in which every collaborator fails. -/
def envSpawnFail : Env :=
  ⟨fun _ => .error "network unreachable", fun _ => .error "invalid Zip archive",
   fun _ _ _ => .fail "No such file or directory"⟩

/-- Every spawned process prints one diagnostic line and exits with code 2. -/
def envExit2 : Env :=
  ⟨fun _ => .error "network unreachable", fun _ => .error "invalid Zip archive",
   fun _ _ _ => .proc ["warning CNDL1150"] ⟨some 2⟩⟩

/-- Like `envExit2` but the exit code is 3. -/
def envExit3 : Env :=
  ⟨fun _ => .error "network unreachable", fun _ => .error "invalid Zip archive",
   fun _ _ _ => .proc ["warning CNDL1150"] ⟨some 3⟩⟩

/-- Every spawned process prints two lines and exits successfully. -/
def envOkLines : Env :=
  ⟨fun _ => .error "network unreachable", fun _ => .error "invalid Zip archive",
   fun _ _ _ => .proc ["line one", "line two"] ⟨some 0⟩⟩

/-- Every spawned process prints nothing and exits successfully. -/
def envHeatOk : Env :=
  ⟨fun _ => .error "network unreachable", fun _ => .error "invalid Zip archive",
   fun _ _ _ => .proc [] ⟨some 0⟩⟩

/-- Any fetched body parses as a one-entry archive holding `sub/a.txt`. -/
def envZipOne : Env :=
  ⟨fun _ => .error "network unreachable",
   fun _ => .ok [.ok ⟨"sub/a.txt", .ok [1, 2]⟩],
   fun _ _ _ => .fail "No such file or directory"⟩

/-- Any fetched body parses as an archive with zero entries. -/
def envZipEmpty : Env :=
  ⟨fun _ => .error "network unreachable", fun _ => .ok [],
   fun _ _ _ => .fail "No such file or directory"⟩

/-- The empty filesystem. -/
def fs0 : FS := ⟨[], []⟩

/-- A filesystem carrying the three toolchain executables. -/
def fsTools : FS :=
  ⟨[("wix/heat.exe", []), ("wix/candle.exe", []), ("wix/light.exe", [])], []⟩

/-- The state after extracting `envZipOne`'s archive into `dst`. -/
def fsAfterZipOne : FS := ⟨[("dst/sub/a.txt", [1, 2])], ["dst", "dst/sub"]⟩

/-! ## Helper lemmas about the verifier. -/

theorem verifyDigest_ok_iff (data : List Nat) (hash : String) (x : List Nat) :
    verifyDigest data hash = .ok x ↔ (x = data ∧ hexDecode hash = .ok (sha256 data)) := by
  unfold verifyDigest
  cases h : hexDecode hash with
  | error e => simp
  | ok expected =>
    by_cases he : expected = sha256 data
    · subst he
      simp [eq_comm]
    · simp [he]

theorem verifyDigest_hexError (data : List Nat) (hash : String) (e : HexError)
    (h : hexDecode hash = .error e) :
    verifyDigest data hash = .error (hexErrorMessage e) := by
  unfold verifyDigest
  rw [h]

theorem verifyDigest_mismatch (data : List Nat) (hash : String) (d : List Nat)
    (h : hexDecode hash = .ok d) (hne : d ≠ sha256 data) :
    verifyDigest data hash = .error "hash mismatch of downloaded file" := by
  unfold verifyDigest
  rw [h]
  simp [hne]

theorem hexErrorMessage_ne_mismatch (e : HexError) :
    hexErrorMessage e ≠ "hash mismatch of downloaded file" := by
  cases e with
  | oddLength => decide
  | invalidChar c i =>
    intro heq
    have h2 := congrArg (fun s => s.data.take 1) heq
    simp only [hexErrorMessage] at h2
    rw [show ("Invalid character " ++ squote ++ String.singleton c ++ squote ++
          " at position " ++ Nat.repr i).data
        = "Invalid character ".data ++ (squote ++ String.singleton c ++ squote ++
          " at position " ++ Nat.repr i).data from rfl] at h2
    simp at h2

/-- C1: for every byte payload and expected-digest string, verification
succeeds (returning the payload) exactly when the SHA-256 digest of the
payload equals the hex-decoded expected digest; a hex decoding failure
produces the (stringified) malformed-expected error, a digest difference
produces the mismatch error, and the two error messages are never equal. -/
theorem verify_digest_iff_sha256_matches (data : List Nat) (hash : String) :
    (∀ x, verifyDigest data hash = .ok x ↔ (x = data ∧ hexDecode hash = .ok (sha256 data)))
    ∧ (∀ e, hexDecode hash = .error e → verifyDigest data hash = .error (hexErrorMessage e))
    ∧ (∀ d, hexDecode hash = .ok d → d ≠ sha256 data →
        verifyDigest data hash = .error "hash mismatch of downloaded file")
    ∧ (∀ e, hexErrorMessage e ≠ "hash mismatch of downloaded file") :=
  ⟨fun x => verifyDigest_ok_iff data hash x,
   fun e h => verifyDigest_hexError data hash e h,
   fun d h hne => verifyDigest_mismatch data hash d h hne,
   fun e => hexErrorMessage_ne_mismatch e⟩

set_option maxRecDepth 10000 in
/-- Witness for C1 at concrete inputs: the hex digest of the empty payload
verifies; a non-hex digest string fails with the malformed message; a valid
but different digest fails with the mismatch message. -/
theorem verify_digest_iff_sha256_matches_witness :
    verifyDigest [] "e3b0c44298fc1c149afbf4c8996fb92427ae41e4649b934ca495991b7852b855" = .ok []
    ∧ verifyDigest [] "zz" = .error (hexErrorMessage (HexError.invalidChar 'z' 0))
    ∧ verifyDigest [] "00" = .error "hash mismatch of downloaded file" := by
  refine ⟨?_, ?_, ?_⟩
  · exact ((verify_digest_iff_sha256_matches [] _).1 []).2 ⟨rfl, by decide⟩
  · exact (verify_digest_iff_sha256_matches [] "zz").2.1 (HexError.invalidChar 'z' 0) (by decide)
  · exact (verify_digest_iff_sha256_matches [] "00").2.2.1 [0] (by decide) (by decide)

/-! ## C2: spawn failures. -/

/-- C2 counterexample: when spawning the harvest tool fails, the stage
runner does not return a typed error to its caller — it aborts (the source
calls `.expect`, which panics). -/
theorem run_heat_spawn_failure_is_abort_not_err :
    (run_heat_exe envSpawnFail "wix" "build" "hdir" "x64").1
        = .aborted "error running heat.exe"
    ∧ Outcome.isErr (run_heat_exe envSpawnFail "wix" "build" "hdir" "x64").1 = false := by
  constructor <;> rfl

/-- C2 (amended): for every stage invocation where spawning the external
tool fails, the stage runner aborts the process with a panic message naming
the tool (`error running heat.exe` / `error running candle.exe`); no typed
error value is returned to the caller and no output is forwarded. -/
theorem spawn_failure_aborts_with_panic (env : Env) (w b h p f c1 c2 : String)
    (h1 : env.spawn (pathJoin w "head.exe") (heatArgs h p) b = .fail c1)
    (h2 : env.spawn (pathJoin w "candle.exe") ["-arch", "x64", f] b = .fail c2) :
    run_heat_exe env w b h p = (.aborted "error running heat.exe", [])
    ∧ run_candle env w b f
        = (.aborted "error running candle.exe", [Event.log ("running candle for " ++ f)]) := by
  constructor
  · simp [run_heat_exe, h1]
  · simp [run_candle, h2]

/-- Witness for C2's amended theorem at a concrete failing environment. -/
theorem spawn_failure_aborts_with_panic_witness :
    run_heat_exe envSpawnFail "wix" "build" "hdir" "x64"
        = (.aborted "error running heat.exe", [])
    ∧ run_candle envSpawnFail "wix" "build" "main.wxs"
        = (.aborted "error running candle.exe", [Event.log "running candle for main.wxs"]) := by
  have h := spawn_failure_aborts_with_panic envSpawnFail "wix" "build" "hdir" "x64" "main.wxs"
    "No such file or directory" "No such file or directory" rfl rfl
  exact ⟨h.1, h.2⟩

/-! ## C3: non-zero exits. -/

/-- C3 counterexample: a compile tool exiting with status 2 yields an error
value that is a constant string; the same value is produced when the tool
exits with status 3, so the numeric exit code is not carried in the error. -/
theorem candle_exit_code_not_in_error :
    (run_candle envExit2 "wix" "build" "main.wxs").1 = .err "error running candle.exe"
    ∧ (run_candle envExit2 "wix" "build" "main.wxs").1
        = (run_candle envExit3 "wix" "build" "main.wxs").1 := by
  constructor <;> rfl

/-- C3 (amended): for every stage invocation where the compile tool
terminates with a non-zero (or signal) exit status, the stage runner
returns the constant error string naming the tool, `error running
candle.exe`, after forwarding all output; the numeric exit code is not part
of the returned error. -/
theorem candle_nonzero_exit_yields_tool_error (env : Env) (w b f : String)
    (lines : List String) (code : Option Int)
    (h : env.spawn (pathJoin w "candle.exe") ["-arch", "x64", f] b = .proc lines ⟨code⟩)
    (hc : code ≠ some 0) :
    run_candle env w b f
      = (.err "error running candle.exe",
         Event.log ("running candle for " ++ f) ::
           Event.spawned (pathJoin w "candle.exe") ["-arch", "x64", f] b ::
           (lines.map Event.log ++ [Event.waited ⟨code⟩])) := by
  have hs : (ExitStatus.mk code).success = false := by
    simp [ExitStatus.success]
    exact hc
  simp [run_candle, h, hs]

/-- Witness for C3's amended theorem at exit code 2. -/
theorem candle_nonzero_exit_yields_tool_error_witness :
    run_candle envExit2 "wix" "build" "main.wxs"
      = (.err "error running candle.exe",
         Event.log "running candle for main.wxs" ::
           Event.spawned "wix/candle.exe" ["-arch", "x64", "main.wxs"] "build" ::
           [Event.log "warning CNDL1150", Event.waited ⟨some 2⟩]) := by
  have h := candle_nonzero_exit_yields_tool_error envExit2 "wix" "build" "main.wxs"
    ["warning CNDL1150"] (some 2) rfl (by decide)
  exact h.trans (by rfl)

/-! ## C4: output forwarding. -/

/-- C4: for every stage invocation whose spawn succeeds, the event trace is
exactly the successful spawn, followed by one log event per line of child
standard output in emission order, followed by the wait on the exit status:
every line is forwarded exactly once, in order, and all lines are forwarded
before the exit status is read and interpreted. -/
theorem stage_output_forwarded_in_order_before_wait (env : Env)
    (w b h p f out : String) (objs : List String)
    (lines1 lines2 lines3 : List String) (st1 st2 st3 : ExitStatus)
    (h1 : env.spawn (pathJoin w "head.exe") (heatArgs h p) b = .proc lines1 st1)
    (h2 : env.spawn (pathJoin w "candle.exe") ["-arch", "x64", f] b = .proc lines2 st2)
    (h3 : env.spawn (pathJoin w "light.exe") (["-o", out] ++ objs) b = .proc lines3 st3) :
    (run_heat_exe env w b h p).2
        = Event.spawned (pathJoin w "head.exe") (heatArgs h p) b ::
            (lines1.map Event.log ++ [Event.waited st1])
    ∧ (run_candle env w b f).2
        = Event.log ("running candle for " ++ f) ::
            Event.spawned (pathJoin w "candle.exe") ["-arch", "x64", f] b ::
            (lines2.map Event.log ++ [Event.waited st2])
    ∧ (run_light env w b objs out).2
        = Event.log ("running light to produce " ++ out) ::
            Event.spawned (pathJoin w "light.exe") (["-o", out] ++ objs) b ::
            (lines3.map Event.log ++ [Event.waited st3]) := by
  refine ⟨?_, ?_, ?_⟩
  · simp only [run_heat_exe]
    rw [h1]
    cases hs : st1.success <;> simp [hs]
  · simp only [run_candle]
    rw [h2]
    cases hs : st2.success <;> simp [hs]
  · simp only [run_light]
    rw [h3]
    cases hs : st3.success <;> simp [hs]

/-- Witness for C4 in an environment where every tool prints two lines. -/
theorem stage_output_forwarded_in_order_before_wait_witness :
    (run_heat_exe envOkLines "wix" "build" "hdir" "x64").2
        = Event.spawned "wix/head.exe" (heatArgs "hdir" "x64") "build" ::
            [Event.log "line one", Event.log "line two", Event.waited ⟨some 0⟩] := by
  have h := stage_output_forwarded_in_order_before_wait envOkLines "wix" "build" "hdir" "x64"
    "main.wxs" "out.msi" ["main.wixobj"] ["line one", "line two"] ["line one", "line two"]
    ["line one", "line two"] ⟨some 0⟩ ⟨some 0⟩ ⟨some 0⟩ rfl rfl rfl
  exact h.1.trans (by rfl)

/-! ## C7: the harvest stage executable. -/

/-- C7: the harvest stage builds the argument vector the claim states, but
the executable it spawns from the toolchain directory is `head.exe` — not
the harvest tool `heat.exe` that the surrounding messages (and the spec)
name. The claim is right about the intent; wix.rs line 127 joins the wrong
file name. -/
theorem heat_stage_spawns_head_exe_typo :
    run_heat_exe envHeatOk "wixdir" "build" "srcdir" "x64"
      = (.ok (), [Event.spawned "wixdir/head.exe" (heatArgs "srcdir" "x64") "build",
                  Event.waited ⟨some 0⟩])
    ∧ heatArgs "srcdir" "x64"
      = ["dir", "srcdir", "-platform", "x64", "-cg", "AppFiles", "-dr", "APPLICATIONFOLDER",
         "-gg", "-srd", "-out", "appdir.wxs", "-var", "var.SourceDir"]
    ∧ pathJoin "wixdir" "head.exe" = "wixdir/head.exe"
    ∧ "wixdir/head.exe" ≠ "wixdir/heat.exe" := by
  refine ⟨rfl, rfl, rfl, ?_⟩
  decide

/-! ## C5: verification gates extraction. -/

/-- C5: toolchain acquisition extracts exactly the bytes whose digest
verified: `get_and_extract_wix` is the extraction of the downloaded data
when `download_and_verify` succeeds and returns the verification error with
the filesystem untouched otherwise; and a successful `download_and_verify`
is equivalent to the fetch succeeding with bytes whose SHA-256 digest equals
the hex-decoded pinned digest. -/
theorem extraction_gated_on_verification (env : Env) (path : String) (fs : FS) :
    (get_and_extract_wix env path fs
      = match download_and_verify env WIX_URL WIX_SHA256 with
        | .error e => (Outcome.err e, fs)
        | .ok data => extract_zip env data path fs)
    ∧ (∀ data, download_and_verify env WIX_URL WIX_SHA256 = .ok data ↔
        (env.fetch WIX_URL = .ok data ∧ hexDecode WIX_SHA256 = .ok (sha256 data))) := by
  constructor
  · rfl
  · intro data
    unfold download_and_verify
    cases hf : env.fetch WIX_URL with
    | error e => simp
    | ok d =>
      rw [verifyDigest_ok_iff]
      constructor
      · rintro ⟨h1, h2⟩
        subst h1
        exact ⟨rfl, h2⟩
      · rintro ⟨h1, h2⟩
        cases h1
        exact ⟨rfl, h2⟩

/-- Witness for C5: with a failing fetch, acquisition returns the network
error and leaves the filesystem untouched — no extraction happens. -/
theorem extraction_gated_on_verification_witness :
    get_and_extract_wix envSpawnFail "dst" fs0 = (.err "network unreachable", fs0) := by
  have h := (extraction_gated_on_verification envSpawnFail "dst" fs0).1
  exact h.trans (by rfl)

/-! ## C6: missing context keys abort rendering. -/

theorem renderTokens_missing (ts : List TemplateToken) (ctx : List (String × String))
    (h : ∃ k, TemplateToken.placeholder k ∈ ts ∧ lookupCtx k ctx = none) :
    ∃ k', lookupCtx k' ctx = none ∧ TemplateToken.placeholder k' ∈ ts ∧
      renderTokens ctx ts = .error (.missingKey k') := by
  induction ts with
  | nil =>
    obtain ⟨k, hk, _⟩ := h
    simp at hk
  | cons t ts ih =>
    cases t with
    | lit s =>
      obtain ⟨k, hk, hm⟩ := h
      have hk' : TemplateToken.placeholder k ∈ ts := by
        rcases List.mem_cons.mp hk with h1 | h1
        · cases h1
        · exact h1
      obtain ⟨k', h1, h2, h3⟩ := ih ⟨k, hk', hm⟩
      exact ⟨k', h1, List.mem_cons_of_mem _ h2, by simp [renderTokens, h3, Except.map]⟩
    | placeholder k0 =>
      cases hl : lookupCtx k0 ctx with
      | none =>
        exact ⟨k0, hl, List.mem_cons_self _ _, by simp [renderTokens, hl]⟩
      | some v =>
        obtain ⟨k, hk, hm⟩ := h
        have hk' : TemplateToken.placeholder k ∈ ts := by
          rcases List.mem_cons.mp hk with h1 | h1
          · cases h1
            rw [hl] at hm
            cases hm
          · exact h1
        obtain ⟨k', h1, h2, h3⟩ := ih ⟨k, hk', hm⟩
        exact ⟨k', h1, List.mem_cons_of_mem _ h2, by simp [renderTokens, hl, h3, Except.map]⟩

/-- C6: if the template parses to tokens among which some placeholder
references a key absent from the context, rendering fails with the
missing-key error naming an absent referenced key, and the
render-and-write step leaves the filesystem exactly as it was — no partial
document is produced. -/
theorem render_missing_key_fails_without_write (t : String) (ctx : List (String × String))
    (fs : FS) (path : String) (toks : List TemplateToken) (k : String)
    (hp : parseTemplate t = .ok toks)
    (hmem : TemplateToken.placeholder k ∈ toks)
    (hmiss : lookupCtx k ctx = none) :
    ∃ k', lookupCtx k' ctx = none ∧ TemplateToken.placeholder k' ∈ toks ∧
      render t ctx = .error (.missingKey k') ∧
      renderToFile fs path t ctx = (.error (.missingKey k'), fs) := by
  obtain ⟨k', h1, h2, h3⟩ := renderTokens_missing toks ctx ⟨k, hmem, hmiss⟩
  have hr : render t ctx = .error (.missingKey k') := by
    unfold render
    rw [hp]
    exact h3
  exact ⟨k', h1, h2, hr, by simp [renderToFile, hr]⟩

/-- Witness for C6 on a concrete template whose placeholder key is absent
from the (empty) context. -/
theorem render_missing_key_fails_without_write_witness :
    render "Hello \x7b\x7bname\x7d\x7d" [] = .error (.missingKey "name")
    ∧ renderToFile fs0 "build/main.wxs" "Hello \x7b\x7bname\x7d\x7d" []
        = (.error (.missingKey "name"), fs0) := by
  obtain ⟨k', _, _, h3, h4⟩ := render_missing_key_fails_without_write
    "Hello \x7b\x7bname\x7d\x7d" [] fs0 "build/main.wxs"
    [TemplateToken.lit "Hello ", TemplateToken.placeholder "name"] "name"
    (by decide) (by decide) rfl
  have hk : k' = "name" := by
    have hd : render "Hello \x7b\x7bname\x7d\x7d" [] = .error (.missingKey "name") := by decide
    have := h3.symm.trans hd
    simpa using this
  subst hk
  exact ⟨h3, h4⟩

/-! ## C10: the empty archive. -/

/-- C10: extracting an archive with zero entries succeeds and performs no
filesystem writes at all — the filesystem state is returned unchanged. -/
theorem extract_zip_empty_archive_noop (env : Env) (data : List Nat) (path : String) (fs : FS)
    (h : env.parseZip data = .ok []) : extract_zip env data path fs = (.ok (), fs) := by
  unfold extract_zip
  rw [h]
  rfl

/-- Witness for C10 at a concrete empty archive. -/
theorem extract_zip_empty_archive_noop_witness :
    extract_zip envZipEmpty [7] "dst" fsTools = (.ok (), fsTools) :=
  extract_zip_empty_archive_noop envZipEmpty [7] "dst" fsTools rfl

/-! ## C9: the orchestrator short-circuits after a harvest failure. -/

theorem countSpawns_map_log (lines : List String) :
    countSpawns (lines.map Event.log) = 0 := by
  induction lines with
  | nil => rfl
  | cons a l ih => simp [countSpawns, List.countP_cons]

/-- C9 counterexample: with the toolchain present, a well-formed template and
a harvest tool that fails to spawn, the harvest stage fails but the pipeline
run ends in a process abort (the stage runner panics), not in the
`Failed(Harvesting)` state the claim promises; no process is ever spawned. -/
theorem pipeline_harvest_spawn_failure_aborts :
    (pipeline envSpawnFail "wix" "build" "hdir" "x64" "x" [] "main.wxs" ["main.wixobj"]
        "out.msi" fsTools).1 = .aborted "error running heat.exe"
    ∧ (pipeline envSpawnFail "wix" "build" "hdir" "x64" "x" [] "main.wxs" ["main.wixobj"]
        "out.msi" fsTools).1 ≠ .failedAt .Harvesting
    ∧ countSpawns (pipeline envSpawnFail "wix" "build" "hdir" "x64" "x" [] "main.wxs"
        ["main.wixobj"] "out.msi" fsTools).2.2 = 0 := by
  refine ⟨rfl, ?_, rfl⟩
  decide

/-- C9 (amended): in every pipeline run that reaches the harvest stage and
whose harvest tool spawns but exits non-zero, the run reports
`Failed(Harvesting)` and exactly one process was ever spawned — the harvest
one; the compile and link stages are never invoked. (When the harvest tool
fails to spawn, still nothing further is spawned, but the run aborts via the
runner's panic instead of reporting the `Harvesting` failure state.) -/
theorem pipeline_harvest_nonzero_exit_short_circuits (env : Env)
    (wixPath buildPath harvestDir platform template wxsName outputPath : String)
    (ctx : List (String × String)) (wixobjs : List String) (fs : FS)
    (rendered : String) (lines : List String) (code : Option Int)
    (htools : toolsPresent fs wixPath = true)
    (hrender : render template ctx = .ok rendered)
    (hspawn : env.spawn (pathJoin wixPath "head.exe") (heatArgs harvestDir platform) buildPath
        = .proc lines ⟨code⟩)
    (hc : code ≠ some 0) :
    (pipeline env wixPath buildPath harvestDir platform template ctx wxsName wixobjs
        outputPath fs).1 = .failedAt .Harvesting
    ∧ countSpawns (pipeline env wixPath buildPath harvestDir platform template ctx wxsName
        wixobjs outputPath fs).2.2 = 1 := by
  have hs : (ExitStatus.mk code).success = false := by
    simp [ExitStatus.success]
    exact hc
  have hheat : run_heat_exe env wixPath buildPath harvestDir platform
      = (.err "error running heat.exe",
         Event.spawned (pathJoin wixPath "head.exe") (heatArgs harvestDir platform) buildPath ::
           (lines.map Event.log ++ [Event.waited ⟨code⟩])) := by
    simp only [run_heat_exe]
    rw [hspawn]
    simp [hs]
  constructor
  · simp [pipeline, htools, renderToFile, hrender, hheat]
  · simp [pipeline, htools, renderToFile, hrender, hheat, countSpawns, List.countP_cons,
      List.countP_append]

/-- Witness for C9's amended theorem at a concrete environment whose tools
exit with status 2. -/
theorem pipeline_harvest_nonzero_exit_short_circuits_witness :
    (pipeline envExit2 "wix" "build" "hdir" "x64" "x" [] "main.wxs" ["main.wixobj"]
        "out.msi" fsTools).1 = .failedAt .Harvesting
    ∧ countSpawns (pipeline envExit2 "wix" "build" "hdir" "x64" "x" [] "main.wxs"
        ["main.wixobj"] "out.msi" fsTools).2.2 = 1 :=
  pipeline_harvest_nonzero_exit_short_circuits envExit2 "wix" "build" "hdir" "x64" "x"
    "main.wxs" "out.msi" [] ["main.wixobj"] fsTools "x" ["warning CNDL1150"] (some 2)
    rfl rfl rfl (by decide)

/-! ## C8: idempotence of extraction. Lemmas about the filesystem model. -/

theorem lookupFile_setFile_self (k : String) (v : List Nat) (m : List (String × List Nat)) :
    lookupFile k (setFile k v m) = some v := by
  induction m with
  | nil => simp [setFile, lookupFile]
  | cons p rest ih =>
    obtain ⟨k1, v1⟩ := p
    by_cases h : k = k1
    · subst h
      simp [setFile, lookupFile]
    · simp [setFile, lookupFile, h, ih]

theorem lookupFile_setFile_ne {q k : String} (h : q ≠ k) (v : List Nat)
    (m : List (String × List Nat)) :
    lookupFile q (setFile k v m) = lookupFile q m := by
  induction m with
  | nil => simp [setFile, lookupFile, h]
  | cons p rest ih =>
    obtain ⟨k1, v1⟩ := p
    by_cases h1 : k = k1
    · subst h1
      simp [setFile, lookupFile, h]
    · by_cases h2 : q = k1
      · subst h2
        simp [setFile, lookupFile, h1]
      · simp [setFile, lookupFile, h1, h2, ih]

theorem setFile_absorb (k : String) (v w : List Nat) (m : List (String × List Nat)) :
    setFile k v (setFile k w m) = setFile k v m := by
  induction m with
  | nil => simp [setFile]
  | cons p rest ih =>
    obtain ⟨k1, v1⟩ := p
    by_cases h : k = k1
    · subst h
      simp [setFile]
    · simp [setFile, h, ih]

theorem keys_setFile_mem {k : String} {m : List (String × List Nat)}
    (h : k ∈ m.map Prod.fst) (v : List Nat) :
    (setFile k v m).map Prod.fst = m.map Prod.fst := by
  induction m with
  | nil => simp at h
  | cons p rest ih =>
    obtain ⟨k1, v1⟩ := p
    by_cases h1 : k = k1
    · subst h1
      simp [setFile]
    · have h2 : k ∈ rest.map Prod.fst := by
        rcases List.mem_map.mp h with ⟨q, hq, he⟩
        rcases List.mem_cons.mp hq with rfl | hq2
        · exact absurd he.symm h1
        · exact List.mem_map.mpr ⟨q, hq2, he⟩
      simp [setFile, h1, ih h2]

theorem keys_setFile_not_mem {k : String} {m : List (String × List Nat)}
    (h : k ∉ m.map Prod.fst) (v : List Nat) :
    (setFile k v m).map Prod.fst = m.map Prod.fst ++ [k] := by
  induction m with
  | nil => simp [setFile]
  | cons p rest ih =>
    obtain ⟨k1, v1⟩ := p
    have h1 : k ≠ k1 := by
      intro he
      exact h (by rw [List.map_cons]; exact he ▸ List.mem_cons_self _ _)
    have h2 : k ∉ rest.map Prod.fst := by
      intro hm
      exact h (by rw [List.map_cons]; exact List.mem_cons_of_mem _ hm)
    simp [setFile, h1, ih h2]

theorem lookupFile_isSome_iff_mem (k : String) (m : List (String × List Nat)) :
    (lookupFile k m).isSome = true ↔ k ∈ m.map Prod.fst := by
  induction m with
  | nil => simp [lookupFile]
  | cons p rest ih =>
    obtain ⟨k1, v1⟩ := p
    by_cases h : k = k1
    · subst h
      simp [lookupFile]
    · simp [lookupFile, h, ih]

theorem lookupFile_eq_none_of_not_mem {k : String} {m : List (String × List Nat)}
    (h : k ∉ m.map Prod.fst) : lookupFile k m = none := by
  cases hl : lookupFile k m with
  | none => rfl
  | some v =>
    exact absurd ((lookupFile_isSome_iff_mem k m).mp (by simp [hl])) h

theorem nodup_keys_setFile {m : List (String × List Nat)}
    (h : (m.map Prod.fst).Nodup) (k : String) (v : List Nat) :
    ((setFile k v m).map Prod.fst).Nodup := by
  by_cases hk : k ∈ m.map Prod.fst
  · rw [keys_setFile_mem hk]
    exact h
  · rw [keys_setFile_not_mem hk]
    simp [List.nodup_append, h, hk]

theorem eq_of_keys_nodup_lookupFile {m n : List (String × List Nat)}
    (hkeys : m.map Prod.fst = n.map Prod.fst) (hnd : (m.map Prod.fst).Nodup)
    (hlook : ∀ k, lookupFile k m = lookupFile k n) : m = n := by
  induction m generalizing n with
  | nil =>
    cases n with
    | nil => rfl
    | cons q n2 => simp at hkeys
  | cons p m2 ih =>
    cases n with
    | nil => simp at hkeys
    | cons q n2 =>
      obtain ⟨k1, v1⟩ := p
      obtain ⟨k2, v2⟩ := q
      simp at hkeys
      obtain ⟨hk12, hktail⟩ := hkeys
      subst hk12
      have hv := hlook k1
      simp [lookupFile] at hv
      subst hv
      simp at hnd
      have htail : ∀ k, lookupFile k m2 = lookupFile k n2 := by
        intro k
        by_cases hk : k = k1
        · subst hk
          rw [lookupFile_eq_none_of_not_mem (by simpa using hnd.1),
            lookupFile_eq_none_of_not_mem (by rw [← hktail]; simpa using hnd.1)]
        · have := hlook k
          simpa [lookupFile, hk] using this
      rw [ih hktail hnd.2 htail]

theorem mem_foldl_insertDir (comps : List String) (ds : List String) (x : String) :
    x ∈ comps.foldl (fun acc c => insertDir c acc) ds ↔ x ∈ ds ∨ x ∈ comps := by
  induction comps generalizing ds with
  | nil => simp
  | cons c cs ih =>
    simp only [List.foldl_cons, ih]
    unfold insertDir
    by_cases h : c ∈ ds
    · simp [h]
      constructor
      · rintro (h1 | h1)
        · exact Or.inl h1
        · exact Or.inr (Or.inr h1)
      · rintro (h1 | h1 | h1)
        · exact Or.inl h1
        · subst h1
          exact Or.inl h
        · exact Or.inr h1
    · simp [h, List.mem_append]
      constructor
      · rintro ((h1 | h1) | h1)
        · exact Or.inl h1
        · exact Or.inr (Or.inl h1)
        · exact Or.inr (Or.inr h1)
      · rintro (h1 | h1 | h1)
        · exact Or.inl (Or.inl h1)
        · exact Or.inl (Or.inr h1)
        · exact Or.inr h1

theorem createDirAll_ok_facts {p : String} {fs fs1 : FS}
    (h : createDirAll p fs = .ok fs1) :
    fs1.files = fs.files
    ∧ (∀ d, d ∈ fs.dirs → d ∈ fs1.dirs)
    ∧ (∀ d, d ∈ fs1.dirs → d ∈ fs.dirs ∨ lookupFile d fs.files = none) := by
  unfold createDirAll at h
  by_cases hp : p = ""
  · rw [if_pos hp] at h
    cases h
    exact ⟨rfl, fun d hd => hd, fun d hd => Or.inl hd⟩
  · rw [if_neg hp] at h
    by_cases hc : ∀ c ∈ pathAncestors p ++ [p], c ∈ fs.dirs ∨ lookupFile c fs.files = none
    · rw [if_pos hc] at h
      cases h
      refine ⟨rfl, ?_, ?_⟩
      · intro d hd
        exact (mem_foldl_insertDir _ _ _).mpr (Or.inl hd)
      · intro d hd
        rcases (mem_foldl_insertDir _ _ _).mp hd with h1 | h1
        · exact Or.inl h1
        · exact hc d h1
    · rw [if_neg hc] at h
      cases h

theorem fileCreate_some_inv {dest : String} {fs fs2 : FS}
    (h : fileCreate dest fs = some fs2) :
    dest ∉ fs.dirs
    ∧ (∃ par, pathParent dest = some par ∧ (par = "" ∨ par ∈ fs.dirs))
    ∧ fs2 = fs.write dest [] := by
  unfold fileCreate at h
  by_cases hd : dest ∈ fs.dirs
  · rw [if_pos hd] at h
    cases h
  · rw [if_neg hd] at h
    cases hp : pathParent dest with
    | none =>
      rw [hp] at h
      cases h
    | some par =>
      simp only [hp] at h
      by_cases hpar : par = "" ∨ par ∈ fs.dirs
      · rw [if_pos hpar] at h
        cases h
        exact ⟨hd, ⟨par, rfl, hpar⟩, rfl⟩
      · rw [if_neg hpar] at h
        cases h

theorem dirStep_ok {parent : String} {fs fs1 : FS}
    (h : (if fs.exists? parent then Except.ok fs else createDirAll parent fs) = .ok fs1) :
    fs1.files = fs.files
    ∧ (∀ d, d ∈ fs.dirs → d ∈ fs1.dirs)
    ∧ (∀ d, d ∈ fs1.dirs → d ∈ fs.dirs ∨ lookupFile d fs.files = none) := by
  by_cases he : fs.exists? parent
  · rw [if_pos he] at h
    cases h
    exact ⟨rfl, fun d hd => hd, fun d hd => Or.inl hd⟩
  · rw [if_neg he] at h
    exact createDirAll_ok_facts h

/-- Inversion of a successful extraction step. -/
theorem extractOne_ok_inv {er : Except String ZipEntry} {path : String} {fs fs' : FS} {u : Unit}
    (h : extractOne er path fs = (.ok u, fs')) :
    ∃ entry parent buff,
      er = .ok entry
      ∧ pathParent (pathJoin path entry.name) = some parent
      ∧ entry.content = .ok buff
      ∧ fs'.files = setFile (pathJoin path entry.name) buff fs.files
      ∧ (parent = "" ∨ parent ∈ fs'.dirs)
      ∧ pathJoin path entry.name ∉ fs'.dirs
      ∧ (∀ d, d ∈ fs.dirs → d ∈ fs'.dirs)
      ∧ (∀ d, d ∈ fs'.dirs → d ∈ fs.dirs ∨ lookupFile d fs.files = none) := by
  cases er with
  | error e => simp [extractOne] at h
  | ok entry =>
    simp only [extractOne] at h
    cases hp : pathParent (pathJoin path entry.name) with
    | none => simp [hp] at h
    | some parent =>
      simp only [hp] at h
      cases hm : (if fs.exists? parent then Except.ok fs else createDirAll parent fs) with
      | error e => simp [hm] at h
      | ok fs1 =>
        simp only [hm] at h
        cases hc : entry.content with
        | error e => simp [hc] at h
        | ok buff =>
          simp only [hc] at h
          cases hf : fileCreate (pathJoin path entry.name) fs1 with
          | none => simp [hf] at h
          | some fs2 =>
            simp only [hf, Prod.mk.injEq] at h
            obtain ⟨hdm, ⟨par2, hp2, hpar2⟩, hfs2⟩ := fileCreate_some_inv hf
            obtain ⟨hfiles1, hdirs1, hnew1⟩ := dirStep_ok hm
            subst hfs2
            have hfs' : fs' = FS.mk (setFile (pathJoin path entry.name) buff fs1.files)
                fs1.dirs := by
              rw [← h.2]
              unfold FS.write
              simp [setFile_absorb]
            refine ⟨entry, parent, buff, rfl, hp, hc, ?_, ?_, ?_, ?_, ?_⟩
            · rw [hfs', hfiles1]
            · rw [hp] at hp2
              cases hp2
              rw [hfs']
              exact hpar2
            · rw [hfs']
              exact hdm
            · intro d hd
              rw [hfs']
              exact hdirs1 d hd
            · intro d hd
              rw [hfs'] at hd
              exact hnew1 d hd

/-- Forward construction of a successful extraction step. -/
theorem extractOne_ok_construct (entry : ZipEntry) (path : String) (u : FS)
    (parent : String) (buff : List Nat)
    (hp : pathParent (pathJoin path entry.name) = some parent)
    (hc : entry.content = .ok buff)
    (hpar : parent = "" ∨ parent ∈ u.dirs)
    (hdest : pathJoin path entry.name ∉ u.dirs) :
    extractOne (.ok entry) path u
      = (.ok (), FS.mk (setFile (pathJoin path entry.name) buff u.files) u.dirs) := by
  have hdir : (if u.exists? parent then Except.ok u else createDirAll parent u) = .ok u := by
    rcases hpar with hpar | hpar
    · subst hpar
      by_cases he : u.exists? ""
      · rw [if_pos he]
      · rw [if_neg he]
        unfold createDirAll
        simp
    · have he : u.exists? parent := Or.inl hpar
      rw [if_pos he]
  have hfc : fileCreate (pathJoin path entry.name) u = some (u.write (pathJoin path entry.name) []) := by
    unfold fileCreate
    rw [if_neg hdest, hp]
    exact if_pos hpar
  simp only [extractOne]
  rw [hp]
  simp only [hdir, hc, hfc]
  unfold FS.write
  simp [setFile_absorb]

theorem extractEntries_cons_ok_inv {er : Except String ZipEntry}
    {rest : List (Except String ZipEntry)} {path : String} {s t : FS}
    (h : extractEntries (er :: rest) path s = (.ok (), t)) :
    ∃ s2, extractOne er path s = (.ok (), s2) ∧ extractEntries rest path s2 = (.ok (), t) := by
  unfold extractEntries at h
  cases ho : extractOne er path s with
  | mk r s2 =>
    cases r with
    | ok a =>
      rw [ho] at h
      exact ⟨s2, rfl, h⟩
    | err e =>
      rw [ho] at h
      simp at h
    | aborted m =>
      rw [ho] at h
      simp at h

theorem extractEntries_cons_of_ok {er : Except String ZipEntry}
    {rest : List (Except String ZipEntry)} {path : String} {s s2 : FS}
    (h : extractOne er path s = (.ok (), s2)) :
    extractEntries (er :: rest) path s = extractEntries rest path s2 := by
  simp [extractEntries, h]

theorem destsOf_cons_ok (path : String) (entry : ZipEntry)
    (rest : List (Except String ZipEntry)) :
    destsOf path (.ok entry :: rest) = pathJoin path entry.name :: destsOf path rest := by
  simp [destsOf]

/-- Facts preserved by a successful extraction run: directories only grow,
directories created during the run were not files at the start, present
files stay present, files outside the written destinations are untouched,
and key uniqueness is preserved. -/
theorem extractEntries_ok_facts {entries : List (Except String ZipEntry)} {path : String}
    {s t : FS} (h : extractEntries entries path s = (.ok (), t)) :
    (∀ d, d ∈ s.dirs → d ∈ t.dirs)
    ∧ (∀ d, d ∈ t.dirs → d ∈ s.dirs ∨ lookupFile d s.files = none)
    ∧ (∀ k, (lookupFile k s.files).isSome = true → (lookupFile k t.files).isSome = true)
    ∧ (∀ k, k ∉ destsOf path entries → lookupFile k t.files = lookupFile k s.files)
    ∧ ((s.files.map Prod.fst).Nodup → (t.files.map Prod.fst).Nodup) := by
  induction entries generalizing s with
  | nil =>
    simp [extractEntries] at h
    subst h
    exact ⟨fun d hd => hd, fun d hd => Or.inl hd, fun k hk => hk, fun k _ => rfl, fun hn => hn⟩
  | cons er rest ih =>
    obtain ⟨s2, hstep, htail⟩ := extractEntries_cons_ok_inv h
    obtain ⟨entry, parent, buff, her, hp, hc, hfiles, hpar, hdest, hdirsMono, hnew⟩ :=
      extractOne_ok_inv hstep
    subst her
    obtain ⟨tMono, tNew, tSome, tUnt, tNodup⟩ := ih htail
    refine ⟨?_, ?_, ?_, ?_, ?_⟩
    · intro d hd
      exact tMono d (hdirsMono d hd)
    · intro d hd
      rcases tNew d hd with h1 | h1
      · exact hnew d h1
      · rw [hfiles] at h1
        by_cases hk : d = pathJoin path entry.name
        · subst hk
          rw [lookupFile_setFile_self] at h1
          cases h1
        · rw [lookupFile_setFile_ne hk] at h1
          exact Or.inr h1
    · intro k hk
      apply tSome
      rw [hfiles]
      by_cases hkd : k = pathJoin path entry.name
      · subst hkd
        rw [lookupFile_setFile_self]
        rfl
      · rw [lookupFile_setFile_ne hkd]
        exact hk
    · intro k hk
      rw [destsOf_cons_ok] at hk
      simp only [List.mem_cons, not_or] at hk
      rw [tUnt k hk.2, hfiles, lookupFile_setFile_ne hk.1]
    · intro hn
      apply tNodup
      rw [hfiles]
      exact nodup_keys_setFile hn _ _

/-- The heart of idempotence: a successful extraction run can be replayed
from any state that has the same directory set and file-key sequence as the
run's final state and agrees with it on every file outside the written
destinations; the replay succeeds and ends in that same final state. -/
theorem extractEntries_rerun (entries : List (Except String ZipEntry)) (path : String) :
    ∀ s t u : FS, (s.files.map Prod.fst).Nodup →
      extractEntries entries path s = (.ok (), t) →
      u.dirs = t.dirs →
      u.files.map Prod.fst = t.files.map Prod.fst →
      (∀ k, k ∉ destsOf path entries → lookupFile k u.files = lookupFile k t.files) →
      extractEntries entries path u = (.ok (), t) := by
  induction entries with
  | nil =>
    intro s t u hnd hrun hd hk hl
    simp [extractEntries] at hrun
    subst hrun
    have hfiles : u.files = s.files := by
      refine eq_of_keys_nodup_lookupFile hk (hk ▸ hnd) ?_
      intro k
      exact hl k (by simp [destsOf])
    have hu : u = s := by
      cases u
      cases s
      simp_all
    rw [hu]
    simp [extractEntries]
  | cons er rest ih =>
    intro s t u hnd hrun hd hk hl
    obtain ⟨s2, hstep, htail⟩ := extractEntries_cons_ok_inv hrun
    obtain ⟨entry, parent, buff, her, hp, hc, hfiles2, hpar, hdest, hdirsMono, hnew⟩ :=
      extractOne_ok_inv hstep
    subst her
    obtain ⟨tMono, tNew, tSome, tUnt, tNodup⟩ := extractEntries_ok_facts htail
    have hlookS2 : lookupFile (pathJoin path entry.name) s2.files = some buff := by
      rw [hfiles2]
      exact lookupFile_setFile_self _ _ _
    have haU : parent = "" ∨ parent ∈ u.dirs := by
      rcases hpar with h1 | h1
      · exact Or.inl h1
      · exact Or.inr (by rw [hd]; exact tMono parent h1)
    have hbU : pathJoin path entry.name ∉ u.dirs := by
      rw [hd]
      intro hmem
      rcases tNew _ hmem with h1 | h1
      · exact hdest h1
      · rw [hlookS2] at h1
        cases h1
    have hstepU := extractOne_ok_construct entry path u parent buff hp hc haU hbU
    rw [extractEntries_cons_of_ok hstepU]
    have hdestKeys : pathJoin path entry.name ∈ t.files.map Prod.fst := by
      rw [← lookupFile_isSome_iff_mem]
      exact tSome _ (by rw [hlookS2]; rfl)
    have hdestKeysU : pathJoin path entry.name ∈ u.files.map Prod.fst := by
      rw [hk]
      exact hdestKeys
    refine ih s2 t (FS.mk (setFile (pathJoin path entry.name) buff u.files) u.dirs)
      ?_ htail ?_ ?_ ?_
    · rw [hfiles2]
      exact nodup_keys_setFile hnd _ _
    · exact hd
    · show (setFile (pathJoin path entry.name) buff u.files).map Prod.fst
        = t.files.map Prod.fst
      rw [keys_setFile_mem hdestKeysU, hk]
    · intro k hkr
      show lookupFile k (setFile (pathJoin path entry.name) buff u.files)
        = lookupFile k t.files
      by_cases hkd : k = pathJoin path entry.name
      · rw [hkd, lookupFile_setFile_self, tUnt _ (hkd ▸ hkr), hlookS2]
      · rw [lookupFile_setFile_ne hkd]
        refine hl k ?_
        rw [destsOf_cons_ok]
        simp only [List.mem_cons, not_or]
        exact ⟨hkd, hkr⟩

/-- C8: extraction is idempotent. A successful extraction of an archive into
a destination can be run again over its own result: every file it wrote is
overwritten without error and the resulting installation tree is
bit-identical to the first run's (the hypothesis that the starting
filesystem has no duplicate file paths reflects that a real filesystem maps
each path to at most one file). -/
theorem extract_zip_idempotent (env : Env) (data : List Nat) (path : String) (fs t : FS)
    (hnd : (fs.files.map Prod.fst).Nodup)
    (h : extract_zip env data path fs = (.ok (), t)) :
    extract_zip env data path t = (.ok (), t) := by
  unfold extract_zip at h ⊢
  cases hz : env.parseZip data with
  | error e =>
    rw [hz] at h
    simp at h
  | ok entries =>
    simp only [hz] at h ⊢
    exact extractEntries_rerun entries path fs t t hnd h rfl rfl (fun k _ => rfl)

/-- Witness for C8 on a concrete one-entry archive extracted into an empty
filesystem, then re-extracted over the result. -/
theorem extract_zip_idempotent_witness :
    extract_zip envZipOne [0] "dst" fs0 = (.ok (), fsAfterZipOne)
    ∧ extract_zip envZipOne [0] "dst" fsAfterZipOne = (.ok (), fsAfterZipOne) := by
  have h1 : extract_zip envZipOne [0] "dst" fs0 = (.ok (), fsAfterZipOne) := by decide
  exact ⟨h1, extract_zip_idempotent envZipOne [0] "dst" fs0 fsAfterZipOne (by decide) h1⟩
